import Mathlib

/-!
Verification of the arc-shape SVG generator
(`window_generator/tools/python_tools/arc_sequence_generator.py`).

The generator is a single pure function `arc_shape_svg` that builds an
alternating pattern `[U -> semicircle] * n` followed by a final U, with
vertical end-cap extensions joined by a top line, and serializes it as a
single continuous SVG path.  We embed the function shallowly: numeric
parameters become rationals, the emitted path commands become a structured
list of `Cmd` values, and the f-string formatting of the Python source is
modelled by explicit decimal-rendering functions.
-/

/-- Error conditions of the builder: the two `assert` preconditions
(repetition count and extension height) and the geometry assertion. -/
inductive SvgErr
  | invalidParameter
  | geometryError
deriving DecidableEq, Repr

/-- The parameter record of `arc_shape_svg`, in the order of the Python
signature.  `n_semicircles` is a Python `int`, hence `ℤ`; the numeric
`float` parameters are modelled as `ℚ`. -/
structure Params where
  n_semicircles : ℤ
  R : ℚ
  u_width : ℚ
  u_depth : ℚ
  ext_above : ℚ
  stroke : String
  stroke_width : ℚ
  margin : ℚ
  linecap : String
  linejoin : String
  background : String
deriving DecidableEq, Repr

/-- The Python defaults of `arc_shape_svg` (everything except the required
`n_semicircles` argument): `R=24.0, u_width=16.0, u_depth=28.0,
ext_above=12.0, stroke="black", stroke_width=2.5, margin=16.0,
linecap="round", linejoin="round", background="white"`. -/
def defaultParams (n : ℤ) : Params :=
  { n_semicircles := n, R := 24, u_width := 16, u_depth := 28
    ext_above := 12, stroke := "black", stroke_width := 5/2, margin := 16
    linecap := "round", linejoin := "round", background := "white" }

/-- `top_y = margin` (source line 45). -/
def top_y (p : Params) : ℚ := p.margin

/-- `baseline = top_y + R + ext_above` (source line 46). -/
def baseline (p : Params) : ℚ := top_y p + p.R + p.ext_above

/-- `arc_apex_y = baseline - R` (source line 47). -/
def arc_apex_y (p : Params) : ℚ := baseline p - p.R

/-- `pattern_width = n_semicircles * (u_width + 2 * R) + u_width`
(source line 52). -/
def pattern_width (p : Params) : ℚ :=
  (p.n_semicircles : ℚ) * (p.u_width + 2 * p.R) + p.u_width

/-- `total_width = pattern_width + 2 * margin` (source line 53). -/
def total_width (p : Params) : ℚ := pattern_width p + 2 * p.margin

/-- `total_height = baseline + u_depth + margin` (source line 55). -/
def total_height (p : Params) : ℚ := baseline p + p.u_depth + p.margin

/-- One SVG path command as emitted by the source: move-to, vertical
line-to, horizontal line-to, or elliptical arc
(`A rx,ry rotation large-arc-flag sweep-flag x,y`). -/
inductive Cmd
  | M (x y : ℚ)
  | V (y : ℚ)
  | H (x : ℚ)
  | A (rx ry : ℚ) (rot largeArc sweep : ℕ) (x y : ℚ)
deriving DecidableEq, Repr

/-- One iteration of the `for _ in range(n_semicircles)` loop
(source lines 68-80): the U (down, right, up) followed by the semicircle
arc; the state is the cursor `x` together with the accumulated command
list. -/
def loopStep (p : Params) (st : ℚ × List Cmd) : ℚ × List Cmd :=
  let x := st.1
  let cs := st.2 ++ [Cmd.V (baseline p + p.u_depth)]
  let x := x + p.u_width
  let cs := cs ++ [Cmd.H x]
  let cs := cs ++ [Cmd.V (baseline p)]
  let x_arc_end := x + 2 * p.R
  let cs := cs ++ [Cmd.A p.R p.R 0 0 1 x_arc_end (baseline p)]
  (x_arc_end, cs)

/-- `n` iterations of the loop body, first iteration first. -/
def loopIter (p : Params) : ℕ → ℚ × List Cmd → ℚ × List Cmd
  | 0, st => st
  | n + 1, st => loopIter p n (loopStep p st)

/-- The complete command sequence built by `arc_shape_svg`
(source lines 57-93): move-to, left end-cap extension, the repeated
`[U -> semicircle]` blocks, the final U, the right end-cap extension, and
the closing horizontal segment back to `left_x = margin`. -/
def cmds (p : Params) : List Cmd :=
  let x : ℚ := p.margin
  let cs : List Cmd := [Cmd.M x (baseline p)]
  let cs := cs ++ [Cmd.V (top_y p)]
  let cs := cs ++ [Cmd.V (baseline p)]
  let st := loopIter p p.n_semicircles.toNat (x, cs)
  let x := st.1
  let cs := st.2 ++ [Cmd.V (baseline p + p.u_depth)]
  let x := x + p.u_width
  let cs := cs ++ [Cmd.H x]
  let cs := cs ++ [Cmd.V (baseline p)]
  let cs := cs ++ [Cmd.V (top_y p)]
  let left_x := p.margin
  let cs := cs ++ [Cmd.H left_x]
  cs

/-- Decimal digit characters of `m`, most significant first, with
structural fuel (`fuel ≥ m` suffices). -/
def natDigits : ℕ → ℕ → List Char
  | 0, _ => []
  | fuel + 1, m =>
    if m = 0 then [] else natDigits fuel (m / 10) ++ [Nat.digitChar (m % 10)]

/-- Decimal rendering of a natural number. -/
def natRepr (m : ℕ) : String :=
  if m = 0 then "0" else String.mk (natDigits m m)

/-- Decimal rendering of an integer (sign, then digits). -/
def intRepr (n : ℤ) : String :=
  if n < 0 then "-" ++ natRepr n.natAbs else natRepr n.natAbs

/-- Exactly-two-digit rendering of `m % 100`, zero padded: the fractional
part of Python's `:.2f` format. -/
def twoDigits (m : ℕ) : String :=
  String.mk [Nat.digitChar (m / 10 % 10), Nat.digitChar (m % 10)]

/-- Model of Python's fixed two-decimal float format `f"{q:.2f}"`: round
`q` to a whole number of hundredths, then render sign, integer part, a
decimal point, and exactly two fractional digits. -/
def fmt2 (q : ℚ) : String :=
  let n : ℤ := round (q * 100)
  let sign := if n < 0 then "-" else ""
  sign ++ natRepr (n.natAbs / 100) ++ "." ++ twoDigits (n.natAbs % 100)

/-- Model of Python's integer float format `f"{q:.0f}"`: round to the
nearest integer and render it with no decimal point. -/
def fmt0 (q : ℚ) : String := intRepr (round q)

/-- Fractional decimal digits of `0 ≤ f < 1`, stopping when the expansion
terminates (fuel-limited). -/
def fracDigits : ℕ → ℚ → List Char
  | 0, _ => []
  | fuel + 1, f =>
    if f = 0 then []
    else
      let f10 := f * 10
      Nat.digitChar (⌊f10⌋).toNat :: fracDigits fuel (f10 - (⌊f10⌋ : ℚ))

/-- Model of Python's `str` on a float (used for `stroke_width` in the
SVG template): integer part, a point, and the fractional digits, with
`".0"` for whole numbers. -/
def pyFloatRepr (q : ℚ) : String :=
  let sign := if q < 0 then "-" else ""
  let a := |q|
  let ip := (⌊a⌋).toNat
  let fp := a - (⌊a⌋ : ℚ)
  if fp = 0 then sign ++ natRepr ip ++ ".0"
  else sign ++ natRepr ip ++ "." ++ String.mk (fracDigits 20 fp)

/-- Serialization of one command, exactly as the source's f-strings
format it: every coordinate through the `:.2f` format, the three arc
flags as plain integers. -/
def Cmd.render : Cmd → String
  | .M x y => "M " ++ fmt2 x ++ "," ++ fmt2 y
  | .V y => "V " ++ fmt2 y
  | .H x => "H " ++ fmt2 x
  | .A rx ry rot la sw x y =>
    "A " ++ fmt2 rx ++ "," ++ fmt2 ry ++ " " ++ natRepr rot ++ " "
      ++ natRepr la ++ " " ++ natRepr sw ++ " " ++ fmt2 x ++ "," ++ fmt2 y

/-- The `:.2f`-formatted coordinate strings appearing in `Cmd.render c`,
in order. -/
def coordStrings : Cmd → List String
  | .M x y => [fmt2 x, fmt2 y]
  | .V y => [fmt2 y]
  | .H x => [fmt2 x]
  | .A rx ry _ _ _ x y => [fmt2 rx, fmt2 ry, fmt2 x, fmt2 y]

/-- `path_d = " ".join(cmds)` (source line 95). -/
def path_d (p : Params) : String :=
  String.intercalate " " ((cmds p).map Cmd.render)

/-- The SVG document template (source lines 97-103): root element with
rounded width/height and view box, background rectangle, and the stroked
path. -/
def svgDoc (p : Params) : String :=
  "<svg xmlns=\"http://www.w3.org/2000/svg\"\n     width=\""
    ++ fmt0 (total_width p) ++ "\" height=\"" ++ fmt0 (total_height p)
    ++ "\"\n     viewBox=\"0 0 " ++ fmt0 (total_width p) ++ " "
    ++ fmt0 (total_height p) ++ "\">\n  <rect x=\"0\" y=\"0\" width=\""
    ++ fmt0 (total_width p) ++ "\" height=\"" ++ fmt0 (total_height p)
    ++ "\" fill=\"" ++ p.background ++ "\"/>\n  <path d=\"" ++ path_d p
    ++ "\" fill=\"none\" stroke=\"" ++ p.stroke ++ "\" stroke-width=\""
    ++ pyFloatRepr p.stroke_width ++ "\"\n        stroke-linecap=\""
    ++ p.linecap ++ "\" stroke-linejoin=\"" ++ p.linejoin ++ "\"/>\n</svg>"

/-- The builder: the two `assert` preconditions (lines 38-39), the
geometry assertion (line 48), then the document. -/
def arc_shape_svg (p : Params) : Except SvgErr String :=
  if p.n_semicircles ≥ 1 then
    if p.ext_above > 0 then
      if top_y p < arc_apex_y p then Except.ok (svgDoc p)
      else Except.error SvgErr.geometryError
    else Except.error SvgErr.invalidParameter
  else Except.error SvgErr.invalidParameter

/-! ### Structural characterization of the command list -/

/-- Whether a command is an elliptical arc. -/
def isArcCmd : Cmd → Bool
  | .A _ _ _ _ _ _ _ => true
  | _ => false

/-- The four commands one loop iteration appends when the cursor is at
`x`: down to `baseline + u_depth`, right to `x + u_width`, up to
`baseline`, then the semicircle to `x + u_width + 2R`. -/
def block (p : Params) (x : ℚ) : List Cmd :=
  [Cmd.V (baseline p + p.u_depth), Cmd.H (x + p.u_width),
   Cmd.V (baseline p),
   Cmd.A p.R p.R 0 0 1 (x + p.u_width + 2 * p.R) (baseline p)]

/-- The commands of `n` consecutive loop iterations starting at cursor
`x`. -/
def blocks (p : Params) : ℕ → ℚ → List Cmd
  | 0, _ => []
  | n + 1, x => block p x ++ blocks p n (x + (p.u_width + 2 * p.R))

theorem loopStep_eq (p : Params) (x : ℚ) (cs : List Cmd) :
    loopStep p (x, cs) = (x + (p.u_width + 2 * p.R), cs ++ block p x) := by
  simp [loopStep, block]
  ring

theorem loopIter_eq (p : Params) :
    ∀ (n : ℕ) (x : ℚ) (cs : List Cmd),
      loopIter p n (x, cs)
        = (x + n * (p.u_width + 2 * p.R), cs ++ blocks p n x) := by
  intro n
  induction n with
  | zero => intro x cs; simp [loopIter, blocks]
  | succ n ih =>
    intro x cs
    rw [loopIter, loopStep_eq, ih, Prod.mk.injEq]
    refine ⟨?_, ?_⟩
    · push_cast
      ring
    · simp [blocks]

/-- The full command list in closed form: the prefix (move-to and left
end-cap), `n_semicircles` blocks, the final U, and the end-cap closing. -/
theorem cmds_eq (p : Params) :
    cmds p
      = [Cmd.M p.margin (baseline p), Cmd.V (top_y p), Cmd.V (baseline p)]
          ++ blocks p p.n_semicircles.toNat p.margin
          ++ [Cmd.V (baseline p + p.u_depth),
              Cmd.H (p.margin
                + p.n_semicircles.toNat * (p.u_width + 2 * p.R)
                + p.u_width),
              Cmd.V (baseline p), Cmd.V (top_y p), Cmd.H p.margin] := by
  rw [cmds]
  rw [loopIter_eq]
  simp

/-! ### Counting arcs and U-triples -/

/-- Number of elliptical-arc commands in a command list. -/
def countA : List Cmd → ℕ
  | [] => 0
  | c :: rest => (if isArcCmd c then 1 else 0) + countA rest

theorem countA_append (l₁ l₂ : List Cmd) :
    countA (l₁ ++ l₂) = countA l₁ + countA l₂ := by
  induction l₁ with
  | nil => simp [countA]
  | cons c rest ih => simp [countA, ih]; ring

theorem countA_block (p : Params) (x : ℚ) : countA (block p x) = 1 := by
  simp [block, countA, isArcCmd]

theorem countA_blocks (p : Params) :
    ∀ (n : ℕ) (x : ℚ), countA (blocks p n x) = n := by
  intro n
  induction n with
  | zero => intro x; simp [blocks, countA]
  | succ n ih =>
    intro x
    rw [blocks, countA_append, countA_block, ih]
    ring

theorem countA_cmds (p : Params) :
    countA (cmds p) = p.n_semicircles.toNat := by
  rw [cmds_eq, countA_append, countA_append, countA_blocks]
  simp [countA, isArcCmd]

/-- The command list ends with the right end-cap (`V top_y`) followed by
the closing `H margin`. -/
theorem cmds_split_last (p : Params) :
    cmds p
      = ([Cmd.M p.margin (baseline p), Cmd.V (top_y p),
            Cmd.V (baseline p)]
          ++ blocks p p.n_semicircles.toNat p.margin
          ++ [Cmd.V (baseline p + p.u_depth),
              Cmd.H (p.margin
                + p.n_semicircles.toNat * (p.u_width + 2 * p.R)
                + p.u_width),
              Cmd.V (baseline p), Cmd.V (top_y p)])
          ++ [Cmd.H p.margin] := by
  rw [cmds_eq]
  simp

/-! ### Path semantics: current point before each command -/

/-- Where a command leaves the pen: the endpoint of each SVG command
given the current point `pt`. -/
def applyCmd (pt : ℚ × ℚ) : Cmd → ℚ × ℚ
  | .M x y => (x, y)
  | .V y => (pt.1, y)
  | .H x => (x, pt.2)
  | .A _ _ _ _ _ x y => (x, y)

/-- Each command paired with the current point in effect when it is
drawn, starting from `pt`. -/
def trackPts (pt : ℚ × ℚ) : List Cmd → List ((ℚ × ℚ) × Cmd)
  | [] => []
  | c :: rest => (pt, c) :: trackPts (applyCmd pt c) rest

theorem trackPts_append (pt : ℚ × ℚ) (l₁ l₂ : List Cmd) :
    trackPts pt (l₁ ++ l₂)
      = trackPts pt l₁ ++ trackPts (List.foldl applyCmd pt l₁) l₂ := by
  induction l₁ generalizing pt with
  | nil => simp [trackPts]
  | cons c rest ih => simp [trackPts, ih]

/-- The well-formedness property of an arc entry: it is drawn from a
point on the baseline and is the source's fixed semicircle
`A R,R 0 0 1 (x+2R),baseline`. -/
def ArcEntryOk (p : Params) (e : (ℚ × ℚ) × Cmd) : Prop :=
  isArcCmd e.2 = true →
    e.1.2 = baseline p
      ∧ e.2 = Cmd.A p.R p.R 0 0 1 (e.1.1 + 2 * p.R) (baseline p)

theorem trackPts_block (p : Params) (x : ℚ) :
    trackPts (x, baseline p) (block p x)
      = [((x, baseline p), Cmd.V (baseline p + p.u_depth)),
         ((x, baseline p + p.u_depth), Cmd.H (x + p.u_width)),
         ((x + p.u_width, baseline p + p.u_depth), Cmd.V (baseline p)),
         ((x + p.u_width, baseline p),
           Cmd.A p.R p.R 0 0 1 (x + p.u_width + 2 * p.R) (baseline p))]
    ∧ List.foldl applyCmd (x, baseline p) (block p x)
        = (x + (p.u_width + 2 * p.R), baseline p) := by
  refine ⟨?_, ?_⟩
  · simp [block, trackPts, applyCmd]
  · simp [block, applyCmd]
    ring

theorem trackPts_blocks (p : Params) :
    ∀ (n : ℕ) (x : ℚ),
      (∀ e ∈ trackPts (x, baseline p) (blocks p n x), ArcEntryOk p e)
        ∧ List.foldl applyCmd (x, baseline p) (blocks p n x)
            = (x + n * (p.u_width + 2 * p.R), baseline p) := by
  intro n
  induction n with
  | zero =>
    intro x
    refine ⟨?_, ?_⟩
    · intro e he
      simp [blocks, trackPts] at he
    · simp [blocks]
  | succ m ih =>
    intro x
    have hb := trackPts_block p x
    refine ⟨?_, ?_⟩
    · intro e he
      rw [blocks, trackPts_append, hb.2] at he
      rcases List.mem_append.mp he with h1 | h2
      · rw [hb.1] at h1
        intro harc
        simp only [List.mem_cons, List.not_mem_nil, or_false] at h1
        rcases h1 with h | h | h | h
        · rw [h] at harc
          exact absurd harc (by simp [isArcCmd])
        · rw [h] at harc
          exact absurd harc (by simp [isArcCmd])
        · rw [h] at harc
          exact absurd harc (by simp [isArcCmd])
        · rw [h]
          refine ⟨rfl, ?_⟩
          simp
      · exact (ih (x + (p.u_width + 2 * p.R))).1 e h2
    · rw [blocks, List.foldl_append, hb.2, (ih _).2]
      rw [Prod.mk.injEq]
      refine ⟨?_, rfl⟩
      push_cast
      ring

/-- Every arc in the emitted command sequence is the fixed semicircle:
drawn from a baseline point `(x, baseline)` to `(x + 2R, baseline)` with
radii `R`, no rotation, minor arc, positive sweep. -/
theorem arcs_ok (p : Params) :
    ∀ e ∈ trackPts (0, 0) (cmds p), ArcEntryOk p e := by
  intro e he
  rw [cmds_eq] at he
  rw [trackPts_append, trackPts_append] at he
  have hpre : List.foldl applyCmd ((0 : ℚ), (0 : ℚ))
      [Cmd.M p.margin (baseline p), Cmd.V (top_y p), Cmd.V (baseline p)]
      = (p.margin, baseline p) := by
    simp [applyCmd]
  rw [hpre] at he
  rcases List.mem_append.mp he with he' | hsuf
  · rcases List.mem_append.mp he' with hpre' | hblocks
    · intro harc
      simp only [trackPts, applyCmd, List.mem_cons, List.not_mem_nil,
        or_false] at hpre'
      rcases hpre' with h | h | h
      all_goals rw [h] at harc
      all_goals exact absurd harc (by simp [isArcCmd])
    · exact (trackPts_blocks p p.n_semicircles.toNat p.margin).1 e hblocks
  · intro harc
    rw [List.foldl_append, hpre,
      (trackPts_blocks p p.n_semicircles.toNat p.margin).2] at hsuf
    simp only [trackPts, applyCmd, List.mem_cons, List.not_mem_nil,
      or_false] at hsuf
    rcases hsuf with h | h | h | h | h
    all_goals rw [h] at harc
    all_goals exact absurd harc (by simp [isArcCmd])

/-! ### Counting completed U-shapes -/

/-- Number of positions at which a completed down/right/up U-triple
starts in the tracked command list: a vertical segment down to `b + d`,
a horizontal segment advancing the cursor's x-coordinate by exactly
`w`, and a vertical segment back up to `b` (sliding-window count over
commands paired with their current points). -/
def countU (b d w : ℚ) : List ((ℚ × ℚ) × Cmd) → ℕ
  | (_, Cmd.V y₁) :: (p₂, Cmd.H x₂) :: (p₃, Cmd.V y₃) :: rest =>
    (if y₁ = b + d ∧ x₂ = p₂.1 + w ∧ y₃ = b then 1 else 0)
      + countU b d w ((p₂, Cmd.H x₂) :: (p₃, Cmd.V y₃) :: rest)
  | _ :: rest => countU b d w rest
  | [] => 0

theorem countU_M (b d w x y : ℚ) (pt : ℚ × ℚ)
    (l : List ((ℚ × ℚ) × Cmd)) :
    countU b d w ((pt, Cmd.M x y) :: l) = countU b d w l := rfl

theorem countU_H (b d w x : ℚ) (pt : ℚ × ℚ)
    (l : List ((ℚ × ℚ) × Cmd)) :
    countU b d w ((pt, Cmd.H x) :: l) = countU b d w l := rfl

theorem countU_A (b d w rx ry : ℚ) (rot la sw : ℕ) (x y : ℚ)
    (pt : ℚ × ℚ) (l : List ((ℚ × ℚ) × Cmd)) :
    countU b d w ((pt, Cmd.A rx ry rot la sw x y) :: l)
      = countU b d w l := rfl

theorem countU_VV (b d w y₁ y₂ : ℚ) (p₁ p₂ : ℚ × ℚ)
    (l : List ((ℚ × ℚ) × Cmd)) :
    countU b d w ((p₁, Cmd.V y₁) :: (p₂, Cmd.V y₂) :: l)
      = countU b d w ((p₂, Cmd.V y₂) :: l) := rfl

theorem countU_VA (b d w y₁ rx ry : ℚ) (rot la sw : ℕ) (x y : ℚ)
    (p₁ p₂ : ℚ × ℚ) (l : List ((ℚ × ℚ) × Cmd)) :
    countU b d w ((p₁, Cmd.V y₁) :: (p₂, Cmd.A rx ry rot la sw x y) :: l)
      = countU b d w ((p₂, Cmd.A rx ry rot la sw x y) :: l) := rfl

theorem countU_VHV (b d w y₁ x₂ y₃ : ℚ) (p₁ p₂ p₃ : ℚ × ℚ)
    (l : List ((ℚ × ℚ) × Cmd)) :
    countU b d w ((p₁, Cmd.V y₁) :: (p₂, Cmd.H x₂) :: (p₃, Cmd.V y₃) :: l)
      = (if y₁ = b + d ∧ x₂ = p₂.1 + w ∧ y₃ = b then 1 else 0)
          + countU b d w ((p₂, Cmd.H x₂) :: (p₃, Cmd.V y₃) :: l) := rfl

theorem countU_VH_pair (b d w y x : ℚ) (p₁ p₂ : ℚ × ℚ) :
    countU b d w [(p₁, Cmd.V y), (p₂, Cmd.H x)] = 0 := rfl

/-- Each tracked loop block contributes exactly one completed U,
whatever follows it. -/
theorem countU_blocks (p : Params) :
    ∀ (n : ℕ) (x : ℚ) (rest : List ((ℚ × ℚ) × Cmd)),
      countU (baseline p) p.u_depth p.u_width
          (trackPts (x, baseline p) (blocks p n x) ++ rest)
        = n + countU (baseline p) p.u_depth p.u_width rest := by
  intro n
  induction n with
  | zero =>
    intro x rest
    simp [blocks, trackPts]
  | succ m ih =>
    intro x rest
    have hb := trackPts_block p x
    rw [blocks, trackPts_append, hb.1, hb.2]
    simp only [List.cons_append, List.nil_append, List.append_assoc]
    rw [countU_VHV, if_pos ⟨rfl, rfl, rfl⟩, countU_H, countU_VA,
      countU_A, ih]
    omega

/-- The tracked final U and end caps contribute exactly one completed U
when the final horizontal segment advances by `u_width` from the cursor
position `X`. -/
theorem countU_tail (p : Params) (X : ℚ) :
    countU (baseline p) p.u_depth p.u_width
      (trackPts (X, baseline p)
        [Cmd.V (baseline p + p.u_depth), Cmd.H (X + p.u_width),
         Cmd.V (baseline p), Cmd.V (top_y p), Cmd.H p.margin]) = 1 := by
  simp only [trackPts, applyCmd]
  rw [countU_VHV, if_pos ⟨rfl, rfl, rfl⟩, countU_H, countU_VV,
    countU_VH_pair]

/-- The whole pattern contains exactly `n + 1` completed U-shapes, each
consisting of a descent to `baseline + u_depth`, a horizontal advance by
exactly `u_width`, and a return to `baseline`. -/
theorem countU_cmds (p : Params) :
    countU (baseline p) p.u_depth p.u_width (trackPts (0, 0) (cmds p))
      = p.n_semicircles.toNat + 1 := by
  rw [cmds_eq, trackPts_append, trackPts_append]
  have hpre : List.foldl applyCmd ((0 : ℚ), (0 : ℚ))
      [Cmd.M p.margin (baseline p), Cmd.V (top_y p), Cmd.V (baseline p)]
      = (p.margin, baseline p) := by
    simp [applyCmd]
  rw [List.foldl_append, hpre,
    (trackPts_blocks p p.n_semicircles.toNat p.margin).2]
  have htail := countU_tail p (p.margin
    + p.n_semicircles.toNat * (p.u_width + 2 * p.R))
  simp only [trackPts, applyCmd, List.cons_append, List.nil_append]
  rw [countU_M, countU_VV]
  cases hN : p.n_semicircles.toNat with
  | zero =>
    rw [hN] at htail
    simp only [blocks, trackPts, List.nil_append]
    rw [countU_VV]
    simp only [trackPts, applyCmd] at htail
    rw [htail]
  | succ m =>
    rw [hN] at htail
    have hb := trackPts_block p p.margin
    rw [blocks, trackPts_append, hb.1, hb.2]
    simp only [List.cons_append, List.nil_append, List.append_assoc]
    rw [countU_VV, countU_VHV, if_pos ⟨rfl, rfl, rfl⟩, countU_H,
      countU_VA, countU_A, countU_blocks]
    simp only [trackPts, applyCmd] at htail
    rw [htail]
    omega

/-! ### Properties of the numeric formatters -/

theorem digitChar_isDigit : ∀ k : ℕ, k < 10 → (Nat.digitChar k).isDigit = true := by
  decide

theorem natDigits_digit :
    ∀ (fuel m : ℕ), ∀ c ∈ natDigits fuel m, c.isDigit = true := by
  intro fuel
  induction fuel with
  | zero => intro m c hc; simp [natDigits] at hc
  | succ f ih =>
    intro m c hc
    rw [natDigits] at hc
    by_cases hm : m = 0
    · rw [if_pos hm] at hc
      simp at hc
    · rw [if_neg hm] at hc
      rcases List.mem_append.mp hc with h | h
      · exact ih _ c h
      · simp only [List.mem_singleton] at h
        rw [h]
        exact digitChar_isDigit _ (Nat.mod_lt _ (by norm_num))

theorem natRepr_digit : ∀ m : ℕ, ∀ c ∈ (natRepr m).data, c.isDigit = true := by
  intro m c hc
  rw [natRepr] at hc
  by_cases hm : m = 0
  · rw [if_pos hm] at hc
    have h : c = '0' := List.mem_singleton.mp hc
    rw [h]
    decide
  · rw [if_neg hm] at hc
    exact natDigits_digit m m c hc

theorem intRepr_char :
    ∀ n : ℤ, ∀ c ∈ (intRepr n).data, c.isDigit = true ∨ c = '-' := by
  intro n c hc
  rw [intRepr] at hc
  by_cases hn : n < 0
  · rw [if_pos hn] at hc
    rcases List.mem_append.mp hc with h | h
    · exact Or.inr (List.mem_singleton.mp h)
    · exact Or.inl (natRepr_digit _ c h)
  · rw [if_neg hn] at hc
    exact Or.inl (natRepr_digit _ c hc)

theorem fmt0_char :
    ∀ q : ℚ, ∀ c ∈ (fmt0 q).data, (c.isDigit = true ∨ c = '-') ∧ c ≠ '.' := by
  intro q c hc
  have h := intRepr_char (round q) c hc
  refine ⟨h, ?_⟩
  rcases h with h | h
  · intro he
    rw [he] at h
    exact absurd h (by decide)
  · rw [h]
    decide

theorem twoDigits_length (m : ℕ) : (twoDigits m).length = 2 := rfl

theorem twoDigits_digit :
    ∀ m : ℕ, ∀ c ∈ (twoDigits m).data, c.isDigit = true := by
  intro m c hc
  have hc' : c ∈ [Nat.digitChar (m / 10 % 10), Nat.digitChar (m % 10)] := hc
  simp only [List.mem_cons, List.not_mem_nil, or_false] at hc'
  rcases hc' with h | h
  · rw [h]
    exact digitChar_isDigit _ (Nat.mod_lt _ (by norm_num))
  · rw [h]
    exact digitChar_isDigit _ (Nat.mod_lt _ (by norm_num))

/-- Shape of the `:.2f` format: always some prefix, a decimal point, and
exactly two digits. -/
theorem fmt2_shape (q : ℚ) :
    ∃ a t, fmt2 q = a ++ "." ++ t ∧ t.length = 2
      ∧ ∀ c ∈ t.data, c.isDigit = true := by
  refine ⟨(if round (q * 100) < 0 then "-" else "")
      ++ natRepr ((round (q * 100)).natAbs / 100),
    twoDigits ((round (q * 100)).natAbs % 100), rfl, rfl, ?_⟩
  exact twoDigits_digit _

/-! ### Success and failure of the builder -/

/-- The geometry assertion is implied by the `ext_above` precondition:
`arc_apex_y - top_y = ext_above`. -/
theorem top_lt_apex (p : Params) (h : 0 < p.ext_above) :
    top_y p < arc_apex_y p := by
  unfold top_y arc_apex_y baseline top_y
  linarith

/-- When both asserted preconditions hold, the builder returns the
document (the geometry assertion can never fire). -/
theorem build_ok (p : Params) (h1 : 1 ≤ p.n_semicircles)
    (h2 : 0 < p.ext_above) : arc_shape_svg p = Except.ok (svgDoc p) := by
  unfold arc_shape_svg
  rw [if_pos h1, if_pos h2, if_pos (top_lt_apex p h2)]

/-! ### The claims -/

/-- C1: for `build(repetitions=1, radius=24, u_width=16, u_depth=28,
extension=12, margin=16)` (the defaults), the layout constants are
`top = 16`, `baseline = 52`, `arc_apex = 28`, and the resulting document
has width `112` and height `96` (both as exact totals and as the rounded
integer strings serialized into the document). -/
theorem c1_concrete_scenario :
    top_y (defaultParams 1) = 16
      ∧ baseline (defaultParams 1) = 52
      ∧ arc_apex_y (defaultParams 1) = 28
      ∧ total_width (defaultParams 1) = 112
      ∧ total_height (defaultParams 1) = 96
      ∧ fmt0 (total_width (defaultParams 1)) = "112"
      ∧ fmt0 (total_height (defaultParams 1)) = "96"
      ∧ arc_shape_svg (defaultParams 1)
          = Except.ok (svgDoc (defaultParams 1)) := by
  have hw : total_width (defaultParams 1) = 112 := by
    norm_num [total_width, pattern_width, defaultParams]
  have hh : total_height (defaultParams 1) = 96 := by
    norm_num [total_height, baseline, top_y, defaultParams]
  refine ⟨?_, ?_, ?_, hw, hh, ?_, ?_, ?_⟩
  · norm_num [top_y, defaultParams]
  · norm_num [baseline, top_y, defaultParams]
  · norm_num [arc_apex_y, baseline, top_y, defaultParams]
  · have h2 : round (((112 : ℚ))) = 112 := by norm_num [round_eq]
    rw [fmt0, hw, h2]
    decide
  · have h2 : round (((96 : ℚ))) = 96 := by norm_num [round_eq]
    rw [fmt0, hh, h2]
    decide
  · exact build_ok _ (by decide) (by decide)

/-- C2: for every repetition count `n ≥ 1` and valid parameters, the
total width is exactly `n*(u_width + 2*radius) + u_width + 2*margin` and
the total height is `baseline + u_depth + margin` with
`baseline = margin + radius + ext_above`. -/
theorem c2_total_dimensions (p : Params) (_h1 : 1 ≤ p.n_semicircles)
    (_h2 : 0 < p.ext_above) :
    total_width p
        = (p.n_semicircles : ℚ) * (p.u_width + 2 * p.R) + p.u_width
            + 2 * p.margin
      ∧ total_height p = baseline p + p.u_depth + p.margin
      ∧ baseline p = p.margin + p.R + p.ext_above := by
  refine ⟨?_, rfl, ?_⟩
  · unfold total_width pattern_width
    ring
  · unfold baseline top_y
    ring

theorem c2_witness :
    total_width (defaultParams 1)
        = ((defaultParams 1).n_semicircles : ℚ)
              * ((defaultParams 1).u_width + 2 * (defaultParams 1).R)
            + (defaultParams 1).u_width + 2 * (defaultParams 1).margin
      ∧ total_height (defaultParams 1)
          = baseline (defaultParams 1) + (defaultParams 1).u_depth
              + (defaultParams 1).margin
      ∧ baseline (defaultParams 1)
          = (defaultParams 1).margin + (defaultParams 1).R
              + (defaultParams 1).ext_above :=
  c2_total_dimensions (defaultParams 1) (by decide) (by decide)

/-- C3: for every repetition count `n ≥ 1`, the emitted command sequence
contains exactly `n` elliptical-arc commands and exactly `n + 1`
completed U-shapes, each U being a down/right/up triple: a vertical
segment to `baseline + u_depth`, a horizontal segment advancing the
cursor x by exactly `u_width`, and a vertical segment back to
`baseline` (counted over the commands paired with their current
points). -/
theorem c3_command_counts (p : Params) (_h1 : 1 ≤ p.n_semicircles) :
    countA (cmds p) = p.n_semicircles.toNat
      ∧ countU (baseline p) p.u_depth p.u_width (trackPts (0, 0) (cmds p))
          = p.n_semicircles.toNat + 1 :=
  ⟨countA_cmds p, countU_cmds p⟩

theorem c3_witness :
    countA (cmds (defaultParams 2)) = (defaultParams 2).n_semicircles.toNat
      ∧ countU (baseline (defaultParams 2)) (defaultParams 2).u_depth
            (defaultParams 2).u_width
            (trackPts (0, 0) (cmds (defaultParams 2)))
          = (defaultParams 2).n_semicircles.toNat + 1 :=
  c3_command_counts (defaultParams 2) (by decide)

/-- C4: the path's first command is a move-to `(margin, baseline)` and
its final command is a horizontal segment ending at `x = margin`, drawn
at height `top_y` (it directly follows the right end-cap's `V top_y`). -/
theorem c4_path_endpoints (p : Params) (_h1 : 1 ≤ p.n_semicircles)
    (_h2 : 0 < p.ext_above) :
    (cmds p).head? = some (Cmd.M p.margin (baseline p))
      ∧ (cmds p).getLast? = some (Cmd.H p.margin)
      ∧ ∃ l, cmds p = l ++ [Cmd.V (top_y p), Cmd.H p.margin] := by
  refine ⟨?_, ?_, ?_⟩
  · rw [cmds_eq]
    simp
  · rw [cmds_split_last, List.getLast?_concat]
  · refine ⟨[Cmd.M p.margin (baseline p), Cmd.V (top_y p),
        Cmd.V (baseline p)]
        ++ blocks p p.n_semicircles.toNat p.margin
        ++ [Cmd.V (baseline p + p.u_depth),
            Cmd.H (p.margin
              + p.n_semicircles.toNat * (p.u_width + 2 * p.R)
              + p.u_width),
            Cmd.V (baseline p)], ?_⟩
    rw [cmds_eq]
    simp

theorem c4_witness :
    (cmds (defaultParams 1)).head?
        = some (Cmd.M (defaultParams 1).margin (baseline (defaultParams 1)))
      ∧ (cmds (defaultParams 1)).getLast?
          = some (Cmd.H (defaultParams 1).margin)
      ∧ ∃ l, cmds (defaultParams 1)
          = l ++ [Cmd.V (top_y (defaultParams 1)),
                  Cmd.H (defaultParams 1).margin] :=
  c4_path_endpoints (defaultParams 1) (by decide) (by decide)

/-- C5: for every parameter set passing the two `InvalidParameter`
checks, `top_y < arc_apex_y` holds, and the builder reports
`GeometryError` if and only if that strict inequality fails (hence never
under these preconditions). -/
theorem c5_geometry_clearance (p : Params) (h1 : 1 ≤ p.n_semicircles)
    (h2 : 0 < p.ext_above) :
    top_y p < arc_apex_y p
      ∧ (arc_shape_svg p = Except.error SvgErr.geometryError
          ↔ ¬ top_y p < arc_apex_y p) := by
  have h3 := top_lt_apex p h2
  refine ⟨h3, ?_⟩
  rw [build_ok p h1 h2]
  constructor
  · intro h
    cases h
  · intro h
    exact absurd h3 h

theorem c5_witness :
    top_y (defaultParams 1) < arc_apex_y (defaultParams 1)
      ∧ (arc_shape_svg (defaultParams 1)
            = Except.error SvgErr.geometryError
          ↔ ¬ top_y (defaultParams 1) < arc_apex_y (defaultParams 1)) :=
  c5_geometry_clearance (defaultParams 1) (by decide) (by decide)

/-- C6: the builder fails with `InvalidParameter` whenever the
repetition count is `< 1` or the extension height is `≤ 0`, and in that
case no document is produced. -/
theorem c6_invalid_parameter (p : Params)
    (h : p.n_semicircles < 1 ∨ p.ext_above ≤ 0) :
    arc_shape_svg p = Except.error SvgErr.invalidParameter
      ∧ ∀ s, arc_shape_svg p ≠ Except.ok s := by
  have hmain : arc_shape_svg p = Except.error SvgErr.invalidParameter := by
    unfold arc_shape_svg
    rcases h with h | h
    · rw [if_neg (by omega)]
    · by_cases hn : p.n_semicircles ≥ 1
      · rw [if_pos hn, if_neg (by linarith)]
      · rw [if_neg hn]
  refine ⟨hmain, fun s hs => ?_⟩
  rw [hmain] at hs
  cases hs

theorem c6_witness :
    (arc_shape_svg (defaultParams 0)
        = Except.error SvgErr.invalidParameter)
      ∧ (arc_shape_svg { defaultParams 1 with ext_above := 0 }
          = Except.error SvgErr.invalidParameter) :=
  ⟨(c6_invalid_parameter (defaultParams 0) (Or.inl (by decide))).1,
   (c6_invalid_parameter { defaultParams 1 with ext_above := 0 }
      (Or.inr (by decide))).1⟩

/-- C7: every semicircle in the pattern is a single elliptical-arc
command with both radii equal to `R`, zero rotation, large-arc-flag `0`,
sweep-flag `1`, drawn from the current point `(x, baseline)` to
`(x + 2R, baseline)` — for every parameter set, so the sweep direction
is a fixed design constant. -/
theorem c7_arc_commands (p : Params) :
    ∀ e ∈ trackPts (0, 0) (cmds p), isArcCmd e.2 = true →
      e.1.2 = baseline p
        ∧ e.2 = Cmd.A p.R p.R 0 0 1 (e.1.1 + 2 * p.R) (baseline p) := by
  intro e he harc
  exact arcs_ok p e he harc

theorem c7_witness :
    ((((32 : ℚ), (52 : ℚ)), Cmd.A 24 24 0 0 1 80 52)).1.2
        = baseline (defaultParams 1)
      ∧ ((((32 : ℚ), (52 : ℚ)), Cmd.A 24 24 0 0 1 80 52)).2
          = Cmd.A (defaultParams 1).R (defaultParams 1).R 0 0 1
              (((((32 : ℚ), (52 : ℚ)), Cmd.A 24 24 0 0 1 80 52)).1.1
                + 2 * (defaultParams 1).R)
              (baseline (defaultParams 1)) :=
  c7_arc_commands (defaultParams 1)
    (((32, 52), Cmd.A 24 24 0 0 1 80 52))
    (by norm_num [cmds, loopIter, loopStep, trackPts, applyCmd, baseline,
      top_y, defaultParams])
    rfl

/-- C8: the builder is a deterministic pure function: two calls with
field-for-field identical parameters return identical documents. -/
theorem c8_deterministic (p q : Params)
    (e1 : p.n_semicircles = q.n_semicircles) (e2 : p.R = q.R)
    (e3 : p.u_width = q.u_width) (e4 : p.u_depth = q.u_depth)
    (e5 : p.ext_above = q.ext_above) (e6 : p.stroke = q.stroke)
    (e7 : p.stroke_width = q.stroke_width) (e8 : p.margin = q.margin)
    (e9 : p.linecap = q.linecap) (e10 : p.linejoin = q.linejoin)
    (e11 : p.background = q.background) :
    arc_shape_svg p = arc_shape_svg q := by
  have hpq : p = q := by
    cases p
    cases q
    simp_all
  rw [hpq]

theorem c8_witness :
    arc_shape_svg (defaultParams 3) = arc_shape_svg (defaultParams 3) :=
  c8_deterministic (defaultParams 3) (defaultParams 3)
    rfl rfl rfl rfl rfl rfl rfl rfl rfl rfl rfl

/-- C9: every coordinate in the path data is rendered in fixed
two-decimal form (some prefix, then a point, then exactly two digits),
while the document width and height are the rounded totals rendered as
plain integers (sign and digits only, no decimal point). -/
theorem c9_numeric_formatting (p : Params) (_h1 : 1 ≤ p.n_semicircles)
    (_h2 : 0 < p.ext_above) :
    (∀ c ∈ cmds p, ∀ s ∈ coordStrings c,
        ∃ a t, s = a ++ "." ++ t ∧ t.length = 2
          ∧ ∀ ch ∈ t.data, ch.isDigit = true)
      ∧ (∀ ch ∈ (fmt0 (total_width p)).data,
          (ch.isDigit = true ∨ ch = '-') ∧ ch ≠ '.')
      ∧ (∀ ch ∈ (fmt0 (total_height p)).data,
          (ch.isDigit = true ∨ ch = '-') ∧ ch ≠ '.')
      ∧ fmt0 (total_width p) = intRepr (round (total_width p))
      ∧ fmt0 (total_height p) = intRepr (round (total_height p)) := by
  refine ⟨?_, fmt0_char _, fmt0_char _, rfl, rfl⟩
  intro c _hc s hs
  cases c with
  | M x y =>
    rcases List.mem_cons.mp hs with h | h
    · rw [h]; exact fmt2_shape x
    · rw [List.mem_singleton.mp h]; exact fmt2_shape y
  | V y =>
    rw [List.mem_singleton.mp hs]; exact fmt2_shape y
  | H x =>
    rw [List.mem_singleton.mp hs]; exact fmt2_shape x
  | A rx ry rot la sw x y =>
    rcases List.mem_cons.mp hs with h | hs
    · rw [h]; exact fmt2_shape rx
    rcases List.mem_cons.mp hs with h | hs
    · rw [h]; exact fmt2_shape ry
    rcases List.mem_cons.mp hs with h | hs
    · rw [h]; exact fmt2_shape x
    · rw [List.mem_singleton.mp hs]; exact fmt2_shape y

theorem c9_witness :
    (∀ c ∈ cmds (defaultParams 1), ∀ s ∈ coordStrings c,
        ∃ a t, s = a ++ "." ++ t ∧ t.length = 2
          ∧ ∀ ch ∈ t.data, ch.isDigit = true)
      ∧ (∀ ch ∈ (fmt0 (total_width (defaultParams 1))).data,
          (ch.isDigit = true ∨ ch = '-') ∧ ch ≠ '.')
      ∧ (∀ ch ∈ (fmt0 (total_height (defaultParams 1))).data,
          (ch.isDigit = true ∨ ch = '-') ∧ ch ≠ '.')
      ∧ fmt0 (total_width (defaultParams 1))
          = intRepr (round (total_width (defaultParams 1)))
      ∧ fmt0 (total_height (defaultParams 1))
          = intRepr (round (total_height (defaultParams 1))) :=
  c9_numeric_formatting (defaultParams 1) (by decide) (by decide)

/-- C10: the two asserted preconditions are the only validation: any
parameter set with repetition count `≥ 1` and positive extension height
produces a document, whatever the radius, widths, margin, stroke width
or style strings (negative geometry included). -/
theorem c10_no_other_validation (p : Params) (h1 : 1 ≤ p.n_semicircles)
    (h2 : 0 < p.ext_above) :
    arc_shape_svg p = Except.ok (svgDoc p) :=
  build_ok p h1 h2

theorem c10_witness :
    arc_shape_svg { defaultParams 1 with R := -5, margin := -3 }
      = Except.ok (svgDoc { defaultParams 1 with R := -5, margin := -3 }) :=
  c10_no_other_validation { defaultParams 1 with R := -5, margin := -3 }
    (by decide) (by decide)
